import Mathlib

/-
  Verification development for the knock-knock dispatcher
  (src/knock-knock.js).

  The JavaScript module is shallowly embedded: JS values that the
  dispatcher inspects for truthiness are modelled by `JSValue`; the
  registry Map is an association list kept in insertion order; schema
  methods are explicit Lean functions that transform the request and
  response carriers and either return a value or raise an error; the
  control flow of the async middleware (try/catch with mutation that
  survives a throw) is modelled by threading an explicit state through
  every step and tagging the outcome with an optional raised error.
-/

set_option autoImplicit false

namespace KnockKnock

/-- The subset of JavaScript values the dispatcher inspects: it tests
truthiness, string-ness and the typeof-object test, and it wraps user
payloads in fresh objects. Objects are modelled by their own fields. -/
inductive JSValue where
  | undef
  | jsnull
  | bool (b : Bool)
  | num (n : Int)
  | str (s : String)
  | obj (fields : List (String × JSValue))

/-- JS truthiness for the modelled values. -/
def truthy : JSValue → Bool
  | .undef => false
  | .jsnull => false
  | .bool b => b
  | .num n => n != 0
  | .str s => s != ""
  | .obj _ => true

/-- The JS expression a or-else b, that is a when a is truthy, else b. -/
def jsOr (a b : JSValue) : JSValue :=
  if truthy a then a else b

/-- The JS test typeof v === object-string; null also passes it. -/
def jsTypeofObject : JSValue → Bool
  | .obj _ => true
  | .jsnull => true
  | _ => false

/-- JS test typeof v === string-string. -/
def isStringJS : JSValue → Bool
  | .str _ => true
  | _ => false

/-- Underlying string of a string value, defaulting to the empty string. -/
def asStr : JSValue → String
  | .str s => s
  | _ => ""

/-- Property read on a JS object given as an association list; absent
keys read as undefined. -/
def lookupJS (m : List (String × JSValue)) (k : String) : JSValue :=
  match m with
  | [] => .undef
  | (k', v) :: rest => if k' = k then v else lookupJS rest k

/-- Modelled from the spec: the class in src/UnauthorizedError.js is not
part of the provided sources. Per the spec it is a typed failure carrier
holding a human-readable message, the schema involved (for diagnostics,
here its name) and an optional wrapped underlying error (here a tag). -/
structure UError where
  message : String
  schemaName : Option String
  causeTag : Option String
  deriving DecidableEq, Repr

/-- Errors that can be raised while the dispatcher runs: assertion
failures, TypeErrors from reading properties of undefined or calling a
missing method, UnauthorizedError instances, and foreign errors thrown
by schema code (identified by a tag). -/
inductive KKError where
  | assertionFailed
  | typeError (msg : String)
  | unauthorized (e : UError)
  | other (tag : String)
  deriving DecidableEq, Repr

/-- Tag naming an error, used as the cause of a wrapping UnauthorizedError. -/
def errTag : KKError → String
  | .assertionFailed => "AssertionError"
  | .typeError _ => "TypeError"
  | .unauthorized _ => "UnauthorizedError"
  | .other tag => tag

/-- The request carrier: four key-value parameter sources plus the two
outcome fields the dispatcher may attach (req.user starts undefined,
req.unauthorizedError starts unset). -/
structure Req where
  params : List (String × JSValue) := []
  query : List (String × JSValue) := []
  cookies : List (String × JSValue) := []
  body : List (String × JSValue) := []
  user : JSValue := .undef
  unauthorizedError : Option UError := none

/-- The response carrier: only its headersSent signal is inspected. -/
structure Res where
  headersSent : Bool := false
  deriving DecidableEq, Repr

/-- A JS function stored in a schema slot: fid models the function
object's identity (the === comparison used for interface-method
detection compares fids), and run is its behaviour: it may mutate the
request and response and either returns a value or throws an error;
mutations persist even when it throws. -/
structure MethodImpl where
  fid : Nat
  run : Req → Res → Req × Res × Except KKError JSValue

/-- A schema object: its name, the hidden default flag set at
registration, and its method slots (none models an absent property). -/
structure Schema where
  name : String := ""
  isDefault : Bool := false
  knockLogin : Option MethodImpl := none
  knockAuth : Option MethodImpl := none
  login : Option MethodImpl := none
  auth : Option MethodImpl := none
  create : Option MethodImpl := none
  loginResponse : Option MethodImpl := none
  authResponse : Option MethodImpl := none
  revoke : Option MethodImpl := none
  oauthLogin : Option MethodImpl := none
  oauthCallback : Option MethodImpl := none
  verify : Option MethodImpl := none

/-- Dynamic property lookup schema[method] for the method names the
dispatcher can be asked to invoke. -/
def Schema.getMethod (s : Schema) : String → Option MethodImpl
  | "knockLogin" => s.knockLogin
  | "knockAuth" => s.knockAuth
  | "login" => s.login
  | "auth" => s.auth
  | "create" => s.create
  | "loginResponse" => s.loginResponse
  | "authResponse" => s.authResponse
  | "revoke" => s.revoke
  | "oauthLogin" => s.oauthLogin
  | "oauthCallback" => s.oauthCallback
  | "verify" => s.verify
  | _ => none

/-- The two capability types of schemaInterface.interface. -/
inductive CapType where
  | login
  | auth
  deriving DecidableEq, Repr

/-- schemaInterface.interface: the required method name per capability. -/
def interfaceName : CapType → String
  | .login => "knockLogin"
  | .auth => "knockAuth"

/-- schemaInterface.hasRequiredFunction: the schema satisfies the
capability iff the required method slot holds a function. -/
def hasRequiredFunction (s : Schema) (t : CapType) : Bool :=
  (s.getMethod (interfaceName t)).isSome

/-- JS === on two property reads that each yield a function or
undefined: undefined === undefined holds, a function equals only the
function object with the same identity. -/
def sameRef : Option MethodImpl → Option MethodImpl → Bool
  | some a, some b => a.fid == b.fid
  | none, none => true
  | _, _ => false

/-- A global response hook from the option object: called with the
schema and the carriers, may mutate them or throw. -/
def GlobalHook : Type :=
  Schema → Req → Res → Req × Res × Except KKError JSValue

/-- The option object: throwUnauthorizedError is kept as a raw JS value
because normalizeOption combines it with JS truthiness. -/
structure KKOption where
  throwUnauthorizedError : JSValue := .undef
  globalLoginResponse : Option GlobalHook := none
  globalAuthResponse : Option GlobalHook := none

/-- normalizeOption: missing option becomes an empty object;
throwUnauthorizedError becomes the raw value or-else true (so an
explicit false is replaced by true); the global hooks are kept only
when they are functions, which the model encodes by their presence. -/
def normalizeOption (option : Option KKOption) : KKOption :=
  let o := option.getD {}
  { o with throwUnauthorizedError := jsOr o.throwUnauthorizedError (.bool true) }

/-- The KnockKnock instance state: the registry Map in insertion order,
the two entries of defaultSchemasCache (none models a falsy entry, that
is an absent or undefined cache slot), and the normalized option. -/
structure KK where
  schemas : List (String × Schema)
  cacheLogin : Option Schema := none
  cacheAuth : Option Schema := none
  option : KKOption

/-- The constructor: empty registry, empty cache, normalized option. -/
def newKnockKnock (option : Option KKOption) : KK :=
  { schemas := [], cacheLogin := none, cacheAuth := none,
    option := normalizeOption option }

/-- Map.set: overwrite the entry with the same key in place, else append. -/
def mapSet (m : List (String × Schema)) (k : String) (v : Schema) :
    List (String × Schema) :=
  match m with
  | [] => [(k, v)]
  | (k', v') :: rest =>
      if k' = k then (k, v) :: rest else (k', v') :: mapSet rest k v

/-- Map.delete: remove the entry with the given key. -/
def mapDelete (m : List (String × Schema)) (k : String) :
    List (String × Schema) :=
  match m with
  | [] => []
  | (k', v) :: rest =>
      if k' = k then rest else (k', v) :: mapDelete rest k

/-- Map.get with a string key. -/
def mapLookup (m : List (String × Schema)) (k : String) : Option Schema :=
  match m with
  | [] => none
  | (k', v) :: rest => if k' = k then some v else mapLookup rest k

/-- Map.get applied to a JS value: the registry keys are strings, so a
non-string key finds nothing. -/
def mapGetJS (m : List (String × Schema)) (name : JSValue) : Option Schema :=
  match name with
  | .str s => mapLookup m s
  | _ => none

/-- Read one entry of defaultSchemasCache. -/
def cacheGet (kk : KK) : CapType → Option Schema
  | .login => kk.cacheLogin
  | .auth => kk.cacheAuth

/-- Write one entry of defaultSchemasCache. -/
def cacheSet (kk : KK) (t : CapType) (v : Option Schema) : KK :=
  match t with
  | .login => { kk with cacheLogin := v }
  | .auth => { kk with cacheAuth := v }

/-- The name-resolution step of enable: a truthy string argument is
written onto the schema and used as the key; otherwise the schema's own
name is the key. -/
def effectiveName (name : JSValue) (schema : Schema) : String × Schema :=
  if truthy name && isStringJS name then
    (asStr name, { schema with name := asStr name })
  else (schema.name, schema)

/-- The verify-override step of enable: a supplied function is
installed as the schema's verify method. -/
def installVerify (schema : Schema) (verifyLogin : Option MethodImpl) :
    Schema :=
  match verifyLogin with
  | some v => { schema with verify := some v }
  | none => schema

/-- enable: resolve the effective name, assert it is truthy, set the
hidden default flag, install a supplied verify function, store the
schema (overwriting a same-named entry) and clear the default-schema
cache. -/
def enable (kk : KK) (name : JSValue) (schema : Schema)
    (setDefault : Bool := false) (verifyLogin : Option MethodImpl := none) :
    Except KKError KK :=
  let nmSch := effectiveName name schema
  if nmSch.1 = "" then .error .assertionFailed
  else
    .ok { kk with
          schemas := mapSet kk.schemas nmSch.1
            (installVerify { nmSch.2 with isDefault := setDefault } verifyLogin),
          cacheLogin := none, cacheAuth := none }

/-- disable: assert the name is truthy, delete the entry and clear the
default-schema cache. -/
def disable (kk : KK) (name : JSValue) : Except KKError KK :=
  if truthy name then
    .ok { kk with
          schemas :=
            match name with
            | .str s => mapDelete kk.schemas s
            | _ => kk.schemas,
          cacheLogin := none, cacheAuth := none }
  else .error .assertionFailed

/-- The valid getter: false for an empty registry, else true iff some
stored schema has the required login method. -/
def valid (kk : KK) : Bool :=
  if kk.schemas.isEmpty then false
  else (kk.schemas.map Prod.snd).any fun s => hasRequiredFunction s .login

/-- The resolver _preferSchema(name, type). With a truthy name the
registry is consulted; when a type is also given the found schema is
kept only when it satisfies the capability — and when the lookup found
nothing, hasRequiredFunction reads a property of undefined, raising a
TypeError. With no name but a type, a falsy cache entry is repopulated
with the first registered schema whose default flag is set and which
satisfies the capability; the (possibly updated) instance state is
returned alongside the result. With neither, the result is null (none). -/
def preferSchema (kk : KK) (name : JSValue) (type? : Option CapType) :
    Except KKError (Option Schema × KK) :=
  if truthy name then
    let res := mapGetJS kk.schemas name
    match type? with
    | some t =>
      match res with
      | some s =>
          .ok ((if hasRequiredFunction s t then some s else none), kk)
      | none => .error (.typeError "cannot read property of undefined")
    | none => .ok (res, kk)
  else
    match type? with
    | some t =>
      match cacheGet kk t with
      | some s => .ok (some s, kk)
      | none =>
        let found := (kk.schemas.map Prod.snd).find? fun s =>
          s.isDefault && hasRequiredFunction s t
        .ok (found, cacheSet kk t found)
    | none => .ok (none, kk)

/-- _getParamFromReq: path param or-else query or-else cookie or-else
body, combined with JS truthiness. -/
def getParamFromReq (req : Req) (param : String) : JSValue :=
  jsOr (lookupJS req.params param)
    (jsOr (lookupJS req.query param)
      (jsOr (lookupJS req.cookies param) (lookupJS req.body param)))

/-- The setUser helper of _manual: a truthy value is stored on req.user,
wrapped as a one-field object when it is not of object type; a falsy
value leaves the request untouched. Returns the updated request and the
value setUser returns. -/
def setUser (req : Req) (user : JSValue) : Req × JSValue :=
  if truthy user then
    let u := if jsTypeofObject user then user else .obj [("user", user)]
    ({ req with user := u }, u)
  else (req, user)

/-- The mutable state an execution step threads: the request, the
response and the instance (whose default cache the login path can
touch). -/
structure ExecState where
  req : Req
  res : Res
  kk : KK

/-- Outcome of an execution step: the state after all mutations that
happened, plus the raised error when the step threw. -/
structure ExecOut where
  st : ExecState
  err : Option KKError

/-- Sequencing that models statements after a possible throw: when the
first step threw, its state is final; otherwise the continuation runs. -/
def andThenE (x : ExecOut) (f : ExecState → ExecOut) : ExecOut :=
  match x.err with
  | some _ => x
  | none => f x.st

/-- Run an optional schema method as a hook: absent slot is a no-op. -/
def runOptHook (hook : Option MethodImpl) (st : ExecState) : ExecOut :=
  match hook with
  | some h =>
    match h.run st.req st.res with
    | (req', res', .ok _) => ⟨⟨req', res', st.kk⟩, none⟩
    | (req', res', .error e) => ⟨⟨req', res', st.kk⟩, some e⟩
  | none => ⟨st, none⟩

/-- Run an optional global response hook. -/
def runGlobalHook (hook : Option GlobalHook) (s : Schema) (st : ExecState) :
    ExecOut :=
  match hook with
  | some g =>
    match g s st.req st.res with
    | (req', res', .ok _) => ⟨⟨req', res', st.kk⟩, none⟩
    | (req', res', .error e) => ⟨⟨req', res', st.kk⟩, some e⟩
  | none => ⟨st, none⟩

/-- The auto session-creation step of the login operation: when a user
was established and no unauthorizedError is set, resolve a companion
auth schema from the knockAuth request parameter (or the default auth
schema) and invoke its create hook when it has one. -/
def runCreateStep (st : ExecState) (user : JSValue) : ExecOut :=
  if truthy user && st.req.unauthorizedError.isNone then
    match preferSchema st.kk (getParamFromReq st.req (interfaceName .auth))
        (some .auth) with
    | .error e => ⟨st, some e⟩
    | .ok (authOpt, kk1) =>
      match authOpt with
      | some a =>
        match a.create with
        | some c =>
          match c.run st.req st.res with
          | (req', res', .ok _) => ⟨⟨req', res', kk1⟩, none⟩
          | (req', res', .error e) => ⟨⟨req', res', kk1⟩, some e⟩
        | none => ⟨⟨st.req, st.res, kk1⟩, none⟩
      | none => ⟨⟨st.req, st.res, kk1⟩, none⟩
  else ⟨st, none⟩

/-- The tail of the login operation once the user value is established:
auto session creation, then the schema's loginResponse hook, then the
global login response hook. -/
def afterUserPhase (kk : KK) (s : Schema) (st : ExecState) (user : JSValue) :
    ExecOut :=
  andThenE (runCreateStep st user) fun st1 =>
  andThenE (runOptHook s.loginResponse st1) fun st2 =>
  runGlobalHook kk.option.globalLoginResponse s st2

/-- The login operation of _manual: assert valid, invoke the schema's
required login method, normalize its return value (or a value the
schema already placed at req.user) through setUser, reject a schema
that finalized the response, then run the post-success phases. -/
def manualLogin (kk : KK) (schema : Schema) (req : Req) (res : Res) :
    ExecOut :=
  if valid kk then
    match schema.getMethod (interfaceName .login) with
    | none =>
        ⟨⟨req, res, kk⟩, some (.typeError "schema.knockLogin is not a function")⟩
    | some m =>
      match m.run req res with
      | (req1, res1, .error e) => ⟨⟨req1, res1, kk⟩, some e⟩
      | (req1, res1, .ok ret) =>
        let ru := setUser req1 (jsOr ret req1.user)
        if res1.headersSent then
          ⟨⟨ru.1, res1, kk⟩,
            some (.unauthorized
              ⟨"don't end res in schema", some schema.name, none⟩)⟩
        else afterUserPhase kk schema ⟨ru.1, res1, kk⟩ ru.2
  else ⟨⟨req, res, kk⟩, some .assertionFailed⟩

/-- The auth operation of _manual: invoke the schema's required auth
method, normalize the result the same way, reject a finalized response,
then run the authResponse hook and the global auth response hook. -/
def manualAuth (kk : KK) (schema : Schema) (req : Req) (res : Res) :
    ExecOut :=
  match schema.getMethod (interfaceName .auth) with
  | none =>
      ⟨⟨req, res, kk⟩, some (.typeError "schema.knockAuth is not a function")⟩
  | some m =>
    match m.run req res with
    | (req1, res1, .error e) => ⟨⟨req1, res1, kk⟩, some e⟩
    | (req1, res1, .ok ret) =>
      let ru := setUser req1 (jsOr ret req1.user)
      if res1.headersSent then
        ⟨⟨ru.1, res1, kk⟩,
          some (.unauthorized
            ⟨"don't end res in schema", some schema.name, none⟩)⟩
      else
        andThenE (runOptHook schema.authResponse ⟨ru.1, res1, kk⟩) fun st2 =>
        runGlobalHook kk.option.globalAuthResponse schema st2

/-- Dispatch to the _manual operation of the capability family. -/
def runManual : CapType → KK → Schema → Req → Res → ExecOut
  | .login => manualLogin
  | .auth => manualAuth

/-- The per-request schema resolution of a generated middleware: when
the closure variable already holds a schema it is used as is; otherwise
the capability-selector parameter of this request is read and resolved
against the registry constrained to the capability type. -/
def resolveSchemaForRequest (kk : KK) (t : CapType) (cache : Option Schema)
    (req : Req) : Except KKError (Option Schema × KK) :=
  match cache with
  | some s => .ok (some s, kk)
  | none => preferSchema kk (getParamFromReq req (interfaceName t)) (some t)

/-- The factory-time part of a generated method kk.method(schemaName):
a truthy schemaName is resolved immediately, outside the middleware and
outside any try/catch, so a raised TypeError escapes to the caller. The
result primes the middleware closure variable. -/
def factoryCall (kk : KK) (t : CapType) (schemaName : JSValue) :
    Except KKError (Option Schema × KK) :=
  if truthy schemaName then preferSchema kk schemaName (some t)
  else .ok (none, kk)

/-- The message of the synthesized UnauthorizedError for a schema that
set neither outcome field. -/
def syntheticMsg : String :=
  "must set req.user if login/auth success or set req.unauthorizedError otherwise"

/-- How the middleware completed the pipeline: next() with no argument,
or next(arg) where the argument is req.unauthorizedError at that point
(possibly undefined, modelled as withArg none). -/
inductive NextCall where
  | noArg
  | withArg (e : Option UError)
  deriving DecidableEq, Repr

/-- Result of one middleware invocation: the closure schema variable
after the call, the final request, response and instance state, and how
next was called. -/
structure MWOut where
  cache : Option Schema
  req : Req
  res : Res
  kk : KK
  next : NextCall

/-- The tail of a middleware invocation, covering the success exit and
the catch clause. With no raised error, next() is called with no
argument. With a raised error, a foreign (non-UnauthorizedError) error
is wrapped as an internal-error UnauthorizedError and stored on the
request; then next(req.unauthorizedError) is called when the
throwUnauthorizedError option is truthy, else next() with no argument. -/
def finishMW (kk : KK) (cache : Option Schema) (eo : ExecOut) : MWOut :=
  match eo.err with
  | none => ⟨cache, eo.st.req, eo.st.res, eo.st.kk, .noArg⟩
  | some e =>
    let wrapped : Option UError :=
      some ⟨"internal error", cache.map Schema.name, some (errTag e)⟩
    let req' :=
      match e with
      | .unauthorized _ => eo.st.req
      | _ => { eo.st.req with unauthorizedError := wrapped }
    if truthy kk.option.throwUnauthorizedError then
      ⟨cache, req', eo.st.res, eo.st.kk, .withArg req'.unauthorizedError⟩
    else ⟨cache, req', eo.st.res, eo.st.kk, .noArg⟩

/-- One invocation of a middleware generated for capability family t
and method name method, with the closure schema variable holding cache.
The try block asserts valid, resolves the schema for this request,
asserts the schema implements the method, routes through _manual when
the method is (by reference identity) one of the two required interface
methods — synthesizing the generic UnauthorizedError when neither
outcome field was set — or calls the method directly otherwise, then
throws req.unauthorizedError when it is set and calls next(). The catch
block wraps a foreign error as an internal-error UnauthorizedError
stored on the request, then calls next(req.unauthorizedError) when the
throwUnauthorizedError option is truthy and next() otherwise. -/
def middlewareBody (kk : KK) (t : CapType) (method : String)
    (cache : Option Schema) (req : Req) (res : Res) : MWOut :=
  let tryOut : Option Schema × ExecOut :=
    if valid kk then
      match resolveSchemaForRequest kk t cache req with
      | .error e => (cache, ⟨⟨req, res, kk⟩, some e⟩)
      | .ok (sOpt, kk1) =>
        match sOpt with
        | none => (sOpt, ⟨⟨req, res, kk1⟩, some .assertionFailed⟩)
        | some s =>
          match s.getMethod method with
          | none => (sOpt, ⟨⟨req, res, kk1⟩, some .assertionFailed⟩)
          | some m =>
            let isInterfaceMethod :=
              sameRef s.knockLogin (some m) || sameRef s.knockAuth (some m)
            let afterCall : ExecOut :=
              if isInterfaceMethod then
                andThenE (runManual t kk1 s req res) fun st =>
                  if !truthy st.req.user && st.req.unauthorizedError.isNone then
                    let synth : Option UError :=
                      some ⟨syntheticMsg, some s.name, none⟩
                    ⟨⟨{ st.req with unauthorizedError := synth },
                      st.res, st.kk⟩, none⟩
                  else ⟨st, none⟩
              else
                match m.run req res with
                | (req', res', .ok _) => ⟨⟨req', res', kk1⟩, none⟩
                | (req', res', .error e) => ⟨⟨req', res', kk1⟩, some e⟩
            (sOpt, andThenE afterCall fun st =>
              match st.req.unauthorizedError with
              | some e => ⟨st, some (.unauthorized e)⟩
              | none => ⟨st, none⟩)
    else (cache, ⟨⟨req, res, kk⟩, some .assertionFailed⟩)
  finishMW kk tryOut.1 tryOut.2

/-
  Concrete instances used by the theorems below.
-/

/-- An empty request. -/
def reqEmpty : Req := {}

/-- A fresh response. -/
def res0 : Res := {}

/-- An instance with an empty registry and default options. -/
def kkEmpty : KK := { schemas := [], option := normalizeOption none }

/-- A login method that succeeds by returning an identity object. -/
def implD : MethodImpl := ⟨11, fun req res => (req, res, .ok (.obj [("id", .num 1)]))⟩

/-- A default schema exposing the required login method. -/
def schemaD : Schema :=
  { name := "D", isDefault := true, knockLogin := some implD, login := some implD }

/-- An instance holding one default login schema, with an empty cache. -/
def kkC5 : KK := { schemas := [("D", schemaD)], option := normalizeOption none }

/-- kkC5 after the default login schema has been memoized. -/
def kkC5b : KK :=
  { schemas := [("D", schemaD)], cacheLogin := some schemaD,
    option := normalizeOption none }

/-
  Helper lemmas about the default-schema cache.
-/

theorem cacheGet_cacheSet (kk : KK) (t : CapType) (v : Option Schema) :
    cacheGet (cacheSet kk t v) t = v := by
  cases t <;> rfl

theorem schemas_cacheSet (kk : KK) (t : CapType) (v : Option Schema) :
    (cacheSet kk t v).schemas = kk.schemas := by
  cases t <;> rfl

theorem cacheSet_none_of_get_none (kk : KK) (t : CapType)
    (h : cacheGet kk t = none) : cacheSet kk t none = kk := by
  cases t <;> cases kk <;> simp_all [cacheGet, cacheSet]

/-
  C3 — parameter extraction precedence.
-/

/-- A request whose path parameter is defined but falsy (empty string)
while the query parameter holds a truthy value under the same key. -/
def reqC3 : Req := { params := [("k", .str "")], query := [("k", .str "q")] }

/-- C3 counterexample: with a defined but falsy path parameter, the
extractor returns the query value, not the path value, refuting the
claim that a defined path parameter (even an empty string) wins. -/
theorem getParam_defined_precedence_counterexample :
    getParamFromReq reqC3 "k" = .str "q" ∧ (JSValue.str "q") ≠ .str "" :=
  ⟨rfl, by simp⟩

/-- C3 amended: extraction returns the first truthy value among path,
query, cookie and body parameters, in that order; defined but falsy
values fall through to the later sources. -/
theorem getParam_first_truthy_precedence (req : Req) (k : String) :
    (truthy (lookupJS req.params k) = true →
      getParamFromReq req k = lookupJS req.params k)
    ∧ (truthy (lookupJS req.params k) = false →
        truthy (lookupJS req.query k) = true →
        getParamFromReq req k = lookupJS req.query k)
    ∧ (truthy (lookupJS req.params k) = false →
        truthy (lookupJS req.query k) = false →
        truthy (lookupJS req.cookies k) = true →
        getParamFromReq req k = lookupJS req.cookies k)
    ∧ (truthy (lookupJS req.params k) = false →
        truthy (lookupJS req.query k) = false →
        truthy (lookupJS req.cookies k) = false →
        getParamFromReq req k = lookupJS req.body k) := by
  unfold getParamFromReq jsOr
  refine ⟨?_, ?_, ?_, ?_⟩ <;> intros <;> simp [*]

/-- A request with only a cookie and a body value under the key. -/
def reqC3w : Req := { cookies := [("k", .str "c")], body := [("k", .str "b")] }

/-- Witness for the amended C3 statement at a concrete request: with
path and query absent, the cookie value is extracted. -/
theorem getParam_first_truthy_precedence_witness :
    getParamFromReq reqC3w "k" = .str "c" :=
  ((getParam_first_truthy_precedence reqC3w "k").2.2.1 rfl rfl rfl).trans rfl

/-
  C4 and C10 — explicit-name resolution.
-/

/-- C4 counterexample: resolving an explicit name that is absent from
the registry together with a capability type does not return undefined;
a TypeError is raised instead (refuting the unrestricted claim that the
resolver otherwise returns undefined). -/
theorem preferSchema_absent_name_counterexample :
    preferSchema kkEmpty (.str "nope") (some .login) =
      .error (.typeError "cannot read property of undefined")
    ∧ preferSchema kkEmpty (.str "nope") (some .login) ≠
        .ok (none, kkEmpty) := by
  have h : preferSchema kkEmpty (.str "nope") (some .login) =
      .error (.typeError "cannot read property of undefined") := rfl
  refine ⟨h, ?_⟩
  rw [h]
  exact fun hc => Except.noConfusion hc

/-- C4 amended: for a name that is present in the registry, resolution
with a capability type returns the named schema exactly when it
satisfies the capability and undefined otherwise — never some other
(default) schema, and without touching the cache or instance state. -/
theorem preferSchema_registered_name_no_fallback (kk : KK) (nm : String)
    (s : Schema) (t : CapType) (hnm : nm ≠ "")
    (hf : mapLookup kk.schemas nm = some s) :
    preferSchema kk (.str nm) (some t) =
      .ok ((if hasRequiredFunction s t then some s else none), kk) := by
  have ht : truthy (.str nm) = true := by simp [truthy, hnm]
  unfold preferSchema
  rw [ht]
  simp [mapGetJS, hf]

/-- A login method implementation used by a schema with no auth capability. -/
def implS : MethodImpl := ⟨7, fun req res => (req, res, .ok .undef)⟩

/-- A registered schema that satisfies login but not auth. -/
def schemaS : Schema := { name := "S", knockLogin := some implS, login := some implS }

/-- An instance holding only schemaS. -/
def kkC4w : KK := { schemas := [("S", schemaS)], option := normalizeOption none }

/-- Witness for the amended C4 statement: requesting the registered
schema S for the auth capability it lacks yields undefined, not a
fallback schema. -/
theorem preferSchema_registered_name_no_fallback_witness :
    preferSchema kkC4w (.str "S") (some .auth) = .ok (none, kkC4w) :=
  preferSchema_registered_name_no_fallback kkC4w "S" schemaS .auth
    (by decide) rfl

/-- C10: resolving an explicit name that is absent from the registry
while a capability type is given raises a TypeError (the required-method
probe reads a property of the undefined lookup result) rather than
returning undefined, and the error escapes the public middleware factory
methods, which resolve a supplied schema name outside any try/catch. -/
theorem preferSchema_absent_name_type_error (kk : KK) (t : CapType)
    (nm : String) (hnm : nm ≠ "") (habs : mapLookup kk.schemas nm = none) :
    preferSchema kk (.str nm) (some t) =
      .error (.typeError "cannot read property of undefined")
    ∧ factoryCall kk t (.str nm) =
      .error (.typeError "cannot read property of undefined") := by
  have ht : truthy (.str nm) = true := by simp [truthy, hnm]
  have h1 : preferSchema kk (.str nm) (some t) =
      .error (.typeError "cannot read property of undefined") := by
    unfold preferSchema
    rw [ht]
    simp [mapGetJS, habs]
  refine ⟨h1, ?_⟩
  unfold factoryCall
  rw [ht]
  simpa using h1

/-- Witness for C10 at a concrete input: the factory method of an empty
instance, called with an unregistered schema name, raises the TypeError. -/
theorem preferSchema_absent_name_type_error_witness :
    factoryCall kkEmpty .login (.str "missing") =
      .error (.typeError "cannot read property of undefined") :=
  (preferSchema_absent_name_type_error kkEmpty .login "missing"
    (by decide) rfl).2

/-
  C5 — default-schema memoization and cache invalidation.
-/

theorem cacheSet_cacheSet (kk : KK) (t : CapType) (v v' : Option Schema) :
    cacheSet (cacheSet kk t v) t v' = cacheSet kk t v' := by
  cases t <;> cases kk <;> rfl

/-- C5: default-schema resolution (no name, only a capability type) is
memoized — re-resolving right after a resolution returns the same
result and leaves the instance unchanged — and every successful enable
or disable call clears both entries of the default-schema cache. -/
theorem preferSchema_default_memoized_and_invalidated :
    (∀ (kk kk1 : KK) (t : CapType) (r : Option Schema),
        preferSchema kk .undef (some t) = .ok (r, kk1) →
        preferSchema kk1 .undef (some t) = .ok (r, kk1))
    ∧ (∀ (kk kk1 : KK) (name : JSValue) (s : Schema) (d : Bool)
          (v : Option MethodImpl),
        enable kk name s d v = .ok kk1 →
        kk1.cacheLogin = none ∧ kk1.cacheAuth = none)
    ∧ (∀ (kk kk1 : KK) (name : JSValue),
        disable kk name = .ok kk1 →
        kk1.cacheLogin = none ∧ kk1.cacheAuth = none) := by
  refine ⟨?_, ?_, ?_⟩
  · intro kk kk1 t r h
    unfold preferSchema at h ⊢
    simp only [truthy, Bool.false_eq_true, if_false] at h ⊢
    cases hc : cacheGet kk t with
    | some s =>
        rw [hc] at h
        simp only [Except.ok.injEq, Prod.mk.injEq] at h
        obtain ⟨h1, h2⟩ := h
        subst h2
        subst h1
        rw [hc]
    | none =>
        rw [hc] at h
        simp only [Except.ok.injEq, Prod.mk.injEq] at h
        obtain ⟨h1, h2⟩ := h
        subst h2
        subst h1
        rw [cacheGet_cacheSet]
        cases hf : (kk.schemas.map Prod.snd).find? fun s =>
            s.isDefault && hasRequiredFunction s t with
        | some s => rfl
        | none => rw [schemas_cacheSet, hf, cacheSet_cacheSet]
  · intro kk kk1 name s d v h
    unfold enable at h
    simp only [] at h
    split at h
    · exact Except.noConfusion h
    · simp only [Except.ok.injEq] at h
      subst h
      exact ⟨rfl, rfl⟩
  · intro kk kk1 name h
    unfold disable at h
    split at h
    · simp only [Except.ok.injEq] at h
      subst h
      exact ⟨rfl, rfl⟩
    · exact Except.noConfusion h

/-- Witness for C5 at a concrete instance: resolving the default login
schema a second time, after the first resolution memoized it, returns
the identical schema and leaves the instance unchanged. -/
theorem preferSchema_default_memoized_witness :
    preferSchema kkC5b .undef (some .login) = .ok (some schemaD, kkC5b) :=
  preferSchema_default_memoized_and_invalidated.1 kkC5 kkC5b .login
    (some schemaD) rfl

/-
  C6 — the valid getter.
-/

theorem knockLogin_installVerify (s : Schema) (v : Option MethodImpl) :
    (installVerify s v).knockLogin = s.knockLogin := by
  cases v <;> rfl

theorem knockLogin_effectiveName (name : JSValue) (s : Schema) :
    (effectiveName name s).2.knockLogin = s.knockLogin := by
  unfold effectiveName
  split <;> rfl

theorem mapSet_isEmpty (m : List (String × Schema)) (k : String) (v : Schema) :
    (mapSet m k v).isEmpty = false := by
  cases m with
  | nil => rfl
  | cons p rest => unfold mapSet; split <;> rfl

theorem snd_mem_mapSet (m : List (String × Schema)) (k : String) (v : Schema) :
    v ∈ (mapSet m k v).map Prod.snd := by
  induction m with
  | nil => simp [mapSet]
  | cons p rest ih =>
      unfold mapSet
      rcases p with ⟨k', v'⟩
      by_cases hk : k' = k
      · simp [hk]
      · simp only [hk, if_false, List.map_cons, List.mem_cons]
        exact Or.inr ih

/-- C6: the valid getter is true exactly when the registry is non-empty
and some stored schema has a callable knockLogin method; a freshly
constructed instance is invalid, enabling a schema with the required
login method makes the instance valid, and enabling such a schema into
a fresh instance and then disabling it makes valid false again. -/
theorem valid_characterization :
    (∀ kk : KK, valid kk = true ↔
        kk.schemas ≠ [] ∧
        ∃ s ∈ kk.schemas.map Prod.snd, hasRequiredFunction s .login = true)
    ∧ (∀ option : Option KKOption, valid (newKnockKnock option) = false)
    ∧ (∀ (kk kk1 : KK) (name : JSValue) (s : Schema) (d : Bool)
          (v : Option MethodImpl),
        hasRequiredFunction s .login = true →
        enable kk name s d v = .ok kk1 → valid kk1 = true)
    ∧ (∀ (option : Option KKOption) (nm : String) (s : Schema) (kk1 kk2 : KK),
        enable (newKnockKnock option) (.str nm) s false none = .ok kk1 →
        disable kk1 (.str nm) = .ok kk2 → valid kk2 = false) := by
  refine ⟨?_, ?_, ?_, ?_⟩
  · intro kk
    rw [valid]
    split
    next hemp => simp [List.isEmpty_iff.mp hemp]
    next hemp =>
      have hne : kk.schemas ≠ [] := by
        intro hnil
        exact hemp (by simp [hnil])
      simp [List.any_eq_true, hne]
  · intro option
    rfl
  · intro kk kk1 name s d v hreq h
    unfold enable at h
    simp only [] at h
    split at h
    · exact Except.noConfusion h
    · simp only [Except.ok.injEq] at h
      subst h
      rw [valid]
      rw [if_neg (by simp [mapSet_isEmpty])]
      rw [List.any_eq_true]
      refine ⟨installVerify
          { (effectiveName name s).2 with isDefault := d } v,
        snd_mem_mapSet _ _ _, ?_⟩
      rw [hasRequiredFunction] at hreq ⊢
      rw [show (installVerify { (effectiveName name s).2 with isDefault := d }
            v).getMethod (interfaceName .login) =
          (installVerify { (effectiveName name s).2 with isDefault := d }
            v).knockLogin from rfl]
      rw [knockLogin_installVerify, show ({ (effectiveName name s).2 with
          isDefault := d } : Schema).knockLogin =
          (effectiveName name s).2.knockLogin from rfl]
      rw [knockLogin_effectiveName]
      exact hreq
  · intro option nm s kk1 kk2 hen hdis
    unfold enable at hen
    simp only [] at hen
    by_cases hb : nm = ""
    · subst hb
      have hname : effectiveName (.str "") s = (s.name, s) := rfl
      rw [hname] at hen
      split at hen
      · exact Except.noConfusion hen
      · simp only [Except.ok.injEq] at hen
        subst hen
        exact absurd hdis (by rw [disable]; simp [truthy])
    · have hname : effectiveName (.str nm) s =
          (nm, { s with name := nm }) := by
        unfold effectiveName
        rw [if_pos (by simp [truthy, isStringJS, hb])]
        rfl
      rw [hname] at hen
      split at hen
      next hc => exact absurd hc hb
      next hc =>
        simp only [Except.ok.injEq] at hen
        subst hen
        rw [disable] at hdis
        rw [if_pos (by simp [truthy, hb])] at hdis
        simp only [Except.ok.injEq] at hdis
        subst hdis
        rw [valid]
        rw [if_pos]
        simp [newKnockKnock, mapSet, mapDelete]

/-- A schema equal to the stored form of schemaD enabled non-default
under the name W. -/
def schemaW : Schema := { name := "W", knockLogin := some implD, login := some implD }

/-- The instance state after enabling schemaW into a fresh instance. -/
def kkW1 : KK := { schemas := [("W", schemaW)], option := normalizeOption none }

/-- Witness for C6 at concrete inputs: enabling a login-capable schema
into a fresh instance makes valid true, and disabling it again makes
valid false. -/
theorem valid_characterization_witness :
    valid kkW1 = true ∧ valid kkEmpty = false :=
  ⟨valid_characterization.2.2.1 (newKnockKnock none) kkW1 (.str "W") schemaD
      false none rfl rfl,
   valid_characterization.2.2.2 none "W" schemaD kkW1 kkEmpty rfl rfl⟩

/-
  C8 — a schema must not finalize the response.
-/

/-- C8: when the required capability method of either family returns
after finalizing the response (headersSent is true), the execution
engine raises the typed UnauthorizedError with the message about not
ending the response in a schema, instead of completing as a success. -/
theorem manual_rejects_finalized_response (kk : KK) (t : CapType) (s : Schema)
    (m : MethodImpl) (req req1 : Req) (res res1 : Res) (ret : JSValue)
    (hvalid : valid kk = true)
    (hm : s.getMethod (interfaceName t) = some m)
    (hrun : m.run req res = (req1, res1, .ok ret))
    (hsent : res1.headersSent = true) :
    (runManual t kk s req res).err =
      some (.unauthorized ⟨"don't end res in schema", some s.name, none⟩) := by
  cases t with
  | login =>
      simp only [runManual, manualLogin, hvalid, if_true, hm, hrun, hsent]
  | auth =>
      simp only [runManual, manualAuth, hm, hrun, hsent, if_true]

/-- A login method that finalizes the response before returning. -/
def implEnd : MethodImpl :=
  ⟨31, fun req _ => (req, { headersSent := true }, .ok .undef)⟩

/-- A schema whose login method ends the response. -/
def schemaE : Schema := { name := "E", knockLogin := some implEnd, login := some implEnd }

/-- An instance holding schemaE. -/
def kkE : KK := { schemas := [("E", schemaE)], option := normalizeOption none }

/-- Witness for C8 at a concrete input: the engine raises the typed
error for a schema that finalized the response. -/
theorem manual_rejects_finalized_response_witness :
    (runManual .login kkE schemaE reqEmpty res0).err =
      some (.unauthorized ⟨"don't end res in schema", some "E", none⟩) :=
  manual_rejects_finalized_response kkE .login schemaE implEnd reqEmpty
    reqEmpty res0 { headersSent := true } .undef rfl rfl rfl rfl

/-
  C9 — the set-user normalization rule.
-/

/-- C9: the user value of a login execution is the required login
method's return value or, when that is falsy, the value the schema
already placed at req.user; setUser stores a truthy non-object value
wrapped as a one-field user object, stores a truthy object as is, and
leaves req.user untouched for a falsy value; and the login operation
feeds exactly this combination into its post-success phases. -/
theorem set_user_rule :
    (∀ (req : Req) (ret : JSValue), truthy ret = true →
      jsOr ret req.user = ret)
    ∧ (∀ (req : Req) (ret : JSValue), truthy ret = false →
        jsOr ret req.user = req.user)
    ∧ (∀ (req : Req) (v : JSValue), truthy v = true →
        jsTypeofObject v = false →
        setUser req v =
          ({ req with user := .obj [("user", v)] }, .obj [("user", v)]))
    ∧ (∀ (req : Req) (v : JSValue), truthy v = true →
        jsTypeofObject v = true →
        setUser req v = ({ req with user := v }, v))
    ∧ (∀ (req : Req) (v : JSValue), truthy v = false →
        setUser req v = (req, v))
    ∧ (∀ (kk : KK) (s : Schema) (m : MethodImpl) (reqA reqB : Req)
          (resA resB : Res) (ret : JSValue),
        valid kk = true →
        s.getMethod (interfaceName .login) = some m →
        m.run reqA resA = (reqB, resB, .ok ret) →
        resB.headersSent = false →
        manualLogin kk s reqA resA =
          afterUserPhase kk s
            ⟨(setUser reqB (jsOr ret reqB.user)).1, resB, kk⟩
            (setUser reqB (jsOr ret reqB.user)).2) := by
  refine ⟨?_, ?_, ?_, ?_, ?_, ?_⟩
  · intro req ret h; simp [jsOr, h]
  · intro req ret h; simp [jsOr, h]
  · intro req v h1 h2; simp [setUser, h1, h2]
  · intro req v h1 h2; simp [setUser, h1, h2]
  · intro req v h; simp [setUser, h]
  · intro kk s m reqA reqB resA resB ret hvalid hm hrun hsent
    simp only [manualLogin, hvalid, if_true, hm, hrun, hsent,
      Bool.false_eq_true, if_false]

/-- Witness for C9 at a concrete input: a truthy non-object user value
is wrapped as a one-field object and stored on req.user. -/
theorem set_user_rule_witness :
    setUser reqEmpty (.str "u") =
      ({ reqEmpty with user := .obj [("user", .str "u")] },
        .obj [("user", .str "u")]) :=
  set_user_rule.2.2.1 reqEmpty (.str "u") rfl rfl

/-
  C7 — synthesized UnauthorizedError when a schema sets neither field.
-/

/-- C7: when a middleware invocation is routed through the execution
engine and the engine completes without raising, but afterwards neither
req.user is truthy nor req.unauthorizedError is set, the generic
UnauthorizedError carrying the synthetic message is stored on the
request and next is called with it — never in its success form. -/
theorem synthesized_unauthorized_error (kk kk1 kk2 : KK) (t : CapType)
    (method : String) (cache : Option Schema) (req req1 : Req)
    (res res1 : Res) (s : Schema) (m : MethodImpl)
    (hthrow : truthy kk.option.throwUnauthorizedError = true)
    (hvalid : valid kk = true)
    (hres : resolveSchemaForRequest kk t cache req = .ok (some s, kk1))
    (hm : s.getMethod method = some m)
    (him : (sameRef s.knockLogin (some m) || sameRef s.knockAuth (some m)) = true)
    (hrun : runManual t kk1 s req res = ⟨⟨req1, res1, kk2⟩, none⟩)
    (hu : truthy req1.user = false)
    (he : req1.unauthorizedError = none) :
    (middlewareBody kk t method cache req res).req.unauthorizedError =
      some ⟨syntheticMsg, some s.name, none⟩
    ∧ (middlewareBody kk t method cache req res).next =
      .withArg (some ⟨syntheticMsg, some s.name, none⟩)
    ∧ (middlewareBody kk t method cache req res).next ≠ .noArg := by
  have hbody : middlewareBody kk t method cache req res =
      { cache := some s,
        req := { req1 with unauthorizedError := some (UError.mk syntheticMsg (some s.name) none) },
        res := res1, kk := kk2,
        next := .withArg (some (UError.mk syntheticMsg (some s.name) none)) } := by
    unfold middlewareBody
    rw [hvalid, hres]
    simp only [if_true, hm, him, hrun, andThenE, hu, he,
      Bool.not_false, Option.isNone_none, Bool.and_self, if_true]
    simp only [finishMW, hthrow, if_true]
  rw [hbody]
  exact ⟨rfl, rfl, by simp⟩

/-- A login method that returns no value and sets nothing. -/
def implN : MethodImpl := ⟨21, fun req res => (req, res, .ok .undef)⟩

/-- A schema whose login method does nothing at all. -/
def schemaN : Schema := { name := "N", knockLogin := some implN, login := some implN }

/-- An instance holding schemaN. -/
def kkN : KK := { schemas := [("N", schemaN)], option := normalizeOption none }

/-- Witness for C7 at a concrete input: a do-nothing login schema makes
the middleware store and forward the synthesized error. -/
theorem synthesized_unauthorized_error_witness :
    (middlewareBody kkN .login "login" (some schemaN) reqEmpty res0).next =
      .withArg (some ⟨syntheticMsg, some "N", none⟩) :=
  (synthesized_unauthorized_error kkN kkN kkN .login "login" (some schemaN)
    reqEmpty reqEmpty res0 res0 schemaN implN rfl rfl rfl rfl rfl rfl
    rfl rfl).2.1

/-
  C1 — the throwUnauthorizedError option.
-/

/-- An option object explicitly asking for suppressed errors. -/
def optFalse : KKOption := { throwUnauthorizedError := .bool false }

/-- A login failure that a schema stores on the request. -/
def errBad : UError := ⟨"bad credentials", some "F", none⟩

/-- A login method that fails by setting req.unauthorizedError. -/
def implF : MethodImpl :=
  ⟨41, fun req res => ({ req with unauthorizedError := some errBad }, res, .ok .undef)⟩

/-- A schema whose login method always fails. -/
def schemaF : Schema := { name := "F", knockLogin := some implF, login := some implF }

/-- An instance, constructed with throwUnauthorizedError set to false,
holding the failing schema. -/
def kkF : KK := { schemas := [("F", schemaF)], option := normalizeOption (some optFalse) }

/-- C1, evaluated at the failing input: although the instance was
constructed with throwUnauthorizedError explicitly false, normalization
replaces the false with true (option or-else true), so the failing
middleware still calls next with the stored error instead of calling
next with no argument — the configured suppression policy is
unreachable. -/
theorem throw_option_false_still_throws :
    (normalizeOption (some optFalse)).throwUnauthorizedError = .bool true
    ∧ (middlewareBody kkF .login "login" (some schemaF) reqEmpty res0).req.unauthorizedError
        = some errBad
    ∧ (middlewareBody kkF .login "login" (some schemaF) reqEmpty res0).next
        = .withArg (some errBad)
    ∧ (middlewareBody kkF .login "login" (some schemaF) reqEmpty res0).next
        ≠ .noArg := by
  refine ⟨rfl, rfl, rfl, ?_⟩
  intro hcontra
  rw [show (middlewareBody kkF .login "login" (some schemaF) reqEmpty
      res0).next = .withArg (some errBad) from rfl] at hcontra
  exact NextCall.noConfusion hcontra

/-
  C2 — per-request schema inference and the closure cache.
-/

/-- A login method returning the marker value A. -/
def implA : MethodImpl := ⟨1, fun req res => (req, res, .ok (.str "A"))⟩

/-- A login method returning the marker value B. -/
def implB : MethodImpl := ⟨2, fun req res => (req, res, .ok (.str "B"))⟩

/-- Schema A, selectable by name. -/
def schemaA : Schema := { name := "A", knockLogin := some implA, login := some implA }

/-- Schema B, selectable by name. -/
def schemaB : Schema := { name := "B", knockLogin := some implB, login := some implB }

/-- An instance with both schemas registered. -/
def kkC2 : KK :=
  { schemas := [("A", schemaA), ("B", schemaB)], option := normalizeOption none }

/-- A request selecting a login schema by name through its knockLogin
query parameter. -/
def reqSel (v : String) : Req := { query := [("knockLogin", .str v)] }

/-- C2 counterexample: through one middleware instance, the first
request (selecting A) stores schema A in the closure; a second request
selecting B is still handled by A — its user payload carries the A
marker, not the B marker its own parameter names, although a fresh
middleware given the same B-selecting request would produce the B
marker. -/
theorem per_request_inference_counterexample :
    (middlewareBody kkC2 .login "login" none (reqSel "A") res0).cache = some schemaA
    ∧ (middlewareBody kkC2 .login "login" none (reqSel "B") res0).req.user
        = .obj [("user", .str "B")]
    ∧ (middlewareBody kkC2 .login "login"
        (middlewareBody kkC2 .login "login" none (reqSel "A") res0).cache
        (reqSel "B") res0).req.user = .obj [("user", .str "A")]
    ∧ (JSValue.obj [("user", .str "A")]) ≠ .obj [("user", .str "B")] := by
  refine ⟨rfl, rfl, rfl, by simp⟩

/-- C2 amended: the selector parameter of a request is consulted only
when the middleware closure holds no schema yet; once a schema is
resolved it is kept in the closure, and every later request through the
same middleware reuses it regardless of its own selector parameters. -/
theorem closure_schema_caching (kk : KK) (t : CapType) (req : Req) :
    (resolveSchemaForRequest kk t none req =
      preferSchema kk (getParamFromReq req (interfaceName t)) (some t))
    ∧ (∀ s : Schema,
        resolveSchemaForRequest kk t (some s) req = .ok (some s, kk))
    ∧ (∀ (s : Schema) (method : String) (res : Res),
        (middlewareBody kk t method (some s) req res).cache = some s) := by
  have hfin : ∀ (c : Option Schema) (eo : ExecOut),
      (finishMW kk c eo).cache = c := by
    intro c eo
    rcases eo with ⟨st, err⟩
    cases err with
    | none => rfl
    | some e =>
        unfold finishMW
        dsimp only
        split <;> rfl
  refine ⟨rfl, fun s => rfl, fun s method res => ?_⟩
  unfold middlewareBody
  rw [hfin]
  cases hv : valid kk with
  | false => rfl
  | true =>
      simp only [resolveSchemaForRequest, if_true]
      cases hg : s.getMethod method with
      | none => rfl
      | some m => rfl

/-- Witness for the amended C2 statement at concrete inputs: a
middleware whose closure holds schema B keeps using it even when the
request selects A by parameter. -/
theorem closure_schema_caching_witness :
    resolveSchemaForRequest kkC2 .login (some schemaB) (reqSel "A") =
      .ok (some schemaB, kkC2) :=
  (closure_schema_caching kkC2 .login (reqSel "A")).2.1 schemaB

end KnockKnock
